import Mathlib

/-!
Verification development for the OLAP data-transformation engine of
`my-olap-app`.  The definitions below are a shallow embedding of the
JavaScript source:

* `processRawData` (src/data/dataProcessor.jsx, fact expansion),
* `applySlice` / `applyDice` (filter operations),
* `applyRollUp` (aggregation),
* `pivotValid` (axis-uniqueness check of OlapControls.handleApplyPivot),
* the cube state machine of `App.jsx` (`handleSlice`, `handleDice`,
  `handleRollUp`, `handleDrillDown`, `handleApplyPivot` and the
  `useEffect` recompute that fires when raw data or axis mapping change).

Modelling conventions: JavaScript numbers are modelled as `Int`
(numeric-precision issues are out of scope per the spec), a possibly
absent (`undefined`/`null`) field is an `Option`, JS string coercion of
`undefined` yields the string "undefined", and JS truthiness of a string
value is "present and non-empty".
-/

namespace Olap

/-- The four selectable dimensions of the engine. -/
inductive Dim where
  | continent
  | region
  | product
  | quarter
deriving DecidableEq, Repr

/-- A raw record of the input table: identifier, three free-text dimension
values and the four quarterly measures.  Any field may be absent. -/
structure Row where
  id : Int
  continent : Option String
  region : Option String
  product : Option String
  Q1 : Option Int
  Q2 : Option Int
  Q3 : Option Int
  Q4 : Option Int
deriving DecidableEq, Repr

/-- A fact: the atomic unit of the cube.  Expanded facts carry
`quarter = some "Q1".."Q4"` and a defined `value`; rolled-up facts carry
`quarter = some "Total"`, no `value`, and the aggregate in `Total`. -/
structure Fact where
  id : String
  continent : Option String
  region : Option String
  product : Option String
  quarter : Option String
  value : Option Int
  Q1 : Option Int
  Q2 : Option Int
  Q3 : Option Int
  Q4 : Option Int
  Total : Option Int
deriving DecidableEq, Repr

/-- `{x, y, z}` axis mapping. -/
structure AxisMapping where
  x : Dim
  y : Dim
  z : Dim
deriving DecidableEq, Repr

/-- JS truthiness of an optional string field: `undefined`, `null` and the
empty string are all falsy. -/
def truthyOpt : Option String → Bool
  | none => false
  | some s => !(s == "")

/-- JS string coercion of a possibly-undefined string value
(`String(undefined) = "undefined"`). -/
def optStr (o : Option String) : String :=
  o.getD "undefined"

/-- `row[dim]` for a raw row.  Raw rows have no `quarter` property, so
accessing it yields `undefined`. -/
def rowGet (r : Row) (d : Dim) : Option String :=
  match d with
  | .continent => r.continent
  | .region => r.region
  | .product => r.product
  | .quarter => none

/-- `item[dim]` for a fact. -/
def factGet (f : Fact) (d : Dim) : Option String :=
  match d with
  | .continent => f.continent
  | .region => f.region
  | .product => f.product
  | .quarter => f.quarter

/-- The four quarter columns iterated by `processRawData`. -/
inductive QName where
  | q1
  | q2
  | q3
  | q4
deriving DecidableEq, Repr

/-- The literal column name of a quarter. -/
def quarterName : QName → String
  | .q1 => "Q1"
  | .q2 => "Q2"
  | .q3 => "Q3"
  | .q4 => "Q4"

/-- `row[quarter]` measure access. -/
def rowQv (r : Row) : QName → Option Int
  | .q1 => r.Q1
  | .q2 => r.Q2
  | .q3 => r.Q3
  | .q4 => r.Q4

/-- The literal array `['Q1', 'Q2', 'Q3', 'Q4']` of `processRawData`. -/
def quarterCols : List QName := [.q1, .q2, .q3, .q4]

/-- The fact pushed by `processRawData` for one row and one defined
quarter: id `row.id-quarter`, all original dimensions, the quarter's value,
and the four retained measures. -/
def mkFact (r : Row) (q : QName) (v : Int) : Fact :=
  { id := toString r.id ++ "-" ++ quarterName q
    continent := r.continent
    region := r.region
    product := r.product
    quarter := some (quarterName q)
    value := some v
    Q1 := r.Q1
    Q2 := r.Q2
    Q3 := r.Q3
    Q4 := r.Q4
    Total := none }

/-- Expansion of a single raw row: the row is skipped when the value of the
X- or Y-mapped dimension is JS-falsy (`!row[axisMapping.x] ||
!row[axisMapping.y]`); otherwise one fact is emitted per quarter whose
value is defined and non-null. -/
def processRow (m : AxisMapping) (r : Row) : List Fact :=
  if truthyOpt (rowGet r m.x) && truthyOpt (rowGet r m.y) then
    quarterCols.filterMap (fun q => (rowQv r q).map (fun v => mkFact r q v))
  else []

/-- `processRawData(rawData, axisMapping)`: the `forEach`/`push` loop over
rows concatenates the per-row emissions in input order. -/
def processRawData (rawData : List Row) (m : AxisMapping) : List Fact :=
  rawData.flatMap (processRow m)

/-- JS `hay.includes(needle)`: the needle occurs as a contiguous substring
of the haystack. -/
def jsIncludes (hay needle : String) : Bool :=
  hay.toList.tails.any (fun t => needle.toList.isPrefixOf t)

/-- The substring predicate shared by slice and dice:
`String(item[dimension]).toLowerCase().includes(String(value).toLowerCase())`. -/
def matchesDim (f : Fact) (d : Dim) (v : String) : Bool :=
  jsIncludes (optStr (factGet f d)).toLower v.toLower

/-- `applySlice(data, dimension, value)`: identity when the dimension or the
value is falsy (absent or empty string), otherwise a case-insensitive
substring filter on the stringified dimension value. -/
def applySlice (data : List Fact) (dimension : Option Dim) (value : String) :
    List Fact :=
  match dimension with
  | none => data
  | some d =>
    if value = "" then data
    else data.filter (fun item => matchesDim item d value)

/-- `applyDice(data, filters)`: identity when the filter map is empty,
otherwise keeps the facts satisfying every entry (an entry with an empty
value is no restriction). -/
def applyDice (data : List Fact) (filters : List (Dim × String)) :
    List Fact :=
  if filters.isEmpty then data
  else
    data.filter (fun item =>
      filters.all (fun p => if p.2 = "" then true else matchesDim item p.1 p.2))

/-- The join-with-dashes aggregation key of `applyRollUp`:
the template literal `continent-region-product`. -/
def rollKey (f : Fact) : String :=
  optStr f.continent ++ "-" ++ optStr f.region ++ "-" ++ optStr f.product

/-- The fresh accumulator entry `applyRollUp` stores the first time a key is
seen: id is the key itself, dimensions and retained measures are copied from
that first fact, and `Total` starts at 0. -/
def rollInit (key : String) (f : Fact) : Fact :=
  { id := key
    continent := f.continent
    region := f.region
    product := f.product
    quarter := none
    value := none
    Q1 := f.Q1
    Q2 := f.Q2
    Q3 := f.Q3
    Q4 := f.Q4
    Total := some 0 }

/-- One accumulation step of `applyRollUp`: `current.Total += item.value`
guarded by `item.quarter && item.value !== undefined`.  Entries always hold
`Total = some t`, so `getD 0` reads the running total. -/
def rollAdd (e : Fact) (item : Fact) : Fact :=
  if truthyOpt item.quarter && item.value.isSome then
    { e with Total := some (e.Total.getD 0 + item.value.getD 0) }
  else e

/-- Insertion-ordered map update, modelling `rolledUpDataMap`: an absent key
is appended (initialised from the item, then immediately accumulated), a
present key is accumulated in place. -/
def upsert (groups : List (String × Fact)) (key : String) (item : Fact) :
    List (String × Fact) :=
  match groups with
  | [] => [(key, rollAdd (rollInit key item) item)]
  | p :: rest =>
    if p.1 = key then (p.1, rollAdd p.2 item) :: rest
    else p :: upsert rest key item

/-- One `forEach` iteration of `applyRollUp`. -/
def rollStep (groups : List (String × Fact)) (item : Fact) :
    List (String × Fact) :=
  upsert groups (rollKey item) item

/-- `applyRollUp(data)`: group-and-sum through the keyed map, then stamp
`quarter: 'Total'` on every emitted fact. -/
def applyRollUp (data : List Fact) : List Fact :=
  ((data.foldl rollStep []).map Prod.snd).map
    (fun f => { f with quarter := some "Total" })

/-- The contribution of one fact to its group's `Total`: its `value` when
the guard `item.quarter && item.value !== undefined` holds, else 0. -/
def contrib (f : Fact) : Int :=
  if truthyOpt f.quarter && f.value.isSome then f.value.getD 0 else 0

/-- The sum of contributions of the facts of `data` whose aggregation key is
`k`. -/
def groupSum (data : List Fact) (k : String) : Int :=
  ((data.filter (fun f => rollKey f == k)).map contrib).sum

/-- First-occurrence accumulation of one key into a key list. -/
def dedupStep (acc : List String) (k : String) : List String :=
  if k ∈ acc then acc else acc ++ [k]

/-- The distinct keys of a key list, in first-occurrence order (the
iteration order of the JS `Map`). -/
def dedupKeys (ks : List String) : List String :=
  ks.foldl dedupStep []

/-- Number of defined, non-null quarterly values of a raw row. -/
def countQuarters (r : Row) : Nat :=
  [r.Q1, r.Q2, r.Q3, r.Q4].countP (fun o => o.isSome)

/-- The filter-map update performed by `handleSlice`: the object spread
`{ ...currentFilters, [dimension]: value }` overwrites a present key in
place and appends an absent key at the end. -/
def setFilter (fs : List (Dim × String)) (d : Dim) (v : String) :
    List (Dim × String) :=
  if fs.any (fun p => p.1 == d) then
    fs.map (fun p => if p.1 = d then (d, v) else p)
  else fs ++ [(d, v)]

/-- The React state of `App.jsx`. -/
structure CubeState where
  rawData : List Row
  cubeData : List Fact
  axisMapping : AxisMapping
  currentFilters : List (Dim × String)
  isRolledUp : Bool
  originalCubeDataBeforeRollUp : List Fact
deriving DecidableEq, Repr

/-- The `useEffect` of `App.jsx` that runs after `rawData` or `axisMapping`
change (the pivot handler always passes a fresh mapping object, so the
effect re-runs on every accepted pivot): recompute the cube and the
baseline from raw data when raw data exist, clear the cube otherwise, and
clear the rolled-up flag and the filters. -/
def runEffect (s : CubeState) : CubeState :=
  if s.rawData.length > 0 then
    let processed := processRawData s.rawData s.axisMapping
    { s with cubeData := processed,
             originalCubeDataBeforeRollUp := processed,
             isRolledUp := false, currentFilters := [] }
  else { s with cubeData := [], isRolledUp := false, currentFilters := [] }

/-- `handleSlice`: merges the new criterion into the current filter map,
filters the unfiltered baseline, and clears the rolled-up flag. -/
def handleSlice (s : CubeState) (d : Dim) (v : String) : CubeState :=
  { s with currentFilters := setFilter s.currentFilters d v,
           cubeData := applySlice s.originalCubeDataBeforeRollUp (some d) v,
           isRolledUp := false }

/-- `handleDice`: replaces the filter map, filters the unfiltered baseline,
and clears the rolled-up flag. -/
def handleDice (s : CubeState) (fs : List (Dim × String)) : CubeState :=
  { s with currentFilters := fs,
           cubeData := applyDice s.originalCubeDataBeforeRollUp fs,
           isRolledUp := false }

/-- `handlePivot` followed by the reactive recompute it triggers. -/
def handlePivot (s : CubeState) (m : AxisMapping) : CubeState :=
  runEffect { s with axisMapping := m, isRolledUp := false }

/-- The axis-uniqueness validation of `OlapControls.handleApplyPivot`:
`new Set([x, y, z]).size === 3`, i.e. the three axes are pairwise
distinct. -/
def pivotValid (m : AxisMapping) : Bool :=
  decide (m.x ≠ m.y) && decide (m.x ≠ m.z) && decide (m.y ≠ m.z)

/-- A pivot request from the controls: rejected (state unchanged, error
reported to the console) when the axes are not pairwise distinct, otherwise
forwarded to `handlePivot`. -/
def handleApplyPivot (s : CubeState) (m : AxisMapping) : CubeState :=
  if pivotValid m then handlePivot s m else s

/-- `handleRollUp`: a guarded transition — only when not already rolled up,
snapshot the current facts, aggregate them, and set the flag. -/
def handleRollUp (s : CubeState) : CubeState :=
  if !s.isRolledUp then
    { s with originalCubeDataBeforeRollUp := s.cubeData,
             cubeData := applyRollUp s.cubeData,
             isRolledUp := true }
  else s

/-- `handleDrillDown`: when rolled up, restore the snapshot and clear the
flag; otherwise, when filters are active, clear them and recompute from raw
data; otherwise do nothing. -/
def handleDrillDown (s : CubeState) : CubeState :=
  if s.isRolledUp then
    { s with cubeData := s.originalCubeDataBeforeRollUp, isRolledUp := false }
  else if s.currentFilters.length > 0 then
    { s with currentFilters := [],
             cubeData := processRawData s.rawData s.axisMapping }
  else s

/-- The default axis mapping of the app. -/
def defaultMapping : AxisMapping := ⟨.continent, .region, .quarter⟩

/-- The raw row of the spec's scenario. -/
def exRow : Row :=
  { id := 1, continent := some "Asia", region := some "East",
    product := some "A", Q1 := some 10, Q2 := some 20, Q3 := some 30,
    Q4 := some 40 }

/-- A concrete base cube state used by the witnesses. -/
def exState : CubeState :=
  { rawData := [exRow]
    cubeData := processRawData [exRow] defaultMapping
    axisMapping := defaultMapping
    currentFilters := []
    isRolledUp := false
    originalCubeDataBeforeRollUp := processRawData [exRow] defaultMapping }

/-- A cube state that is already rolled up, used by a witness. -/
def exRolledState : CubeState := { exState with isRolledUp := true }

/-- An empty cube state used by a counterexample. -/
def emptyState : CubeState :=
  { rawData := [], cubeData := [], axisMapping := defaultMapping,
    currentFilters := [], isRolledUp := false,
    originalCubeDataBeforeRollUp := [] }

/-- First-match lookup in the insertion-ordered map. -/
def lookupKey (k : String) : List (String × Fact) → Option Fact
  | [] => none
  | p :: rest => if p.1 = k then some p.2 else lookupKey k rest

/-- A row with only Q1 and Q3 defined, used by a witness. -/
def exRowPartial : Row :=
  { id := 2, continent := some "Asia", region := some "East",
    product := some "B", Q1 := some 5, Q2 := none, Q3 := some 7,
    Q4 := none }

/-- A row missing its region (the default Y-mapped dimension), used by a
witness. -/
def exRowMissing : Row :=
  { id := 3, continent := some "Asia", region := none,
    product := some "B", Q1 := some 5, Q2 := some 6, Q3 := some 7,
    Q4 := some 8 }

/-- A row whose continent (the default X-mapped dimension) is a blank
string, with all four quarters defined. -/
def rowBlankContinent : Row :=
  { id := 4, continent := some "", region := some "East",
    product := some "B", Q1 := some 1, Q2 := some 2, Q3 := some 3,
    Q4 := some 4 }

/-- A row whose product (not mapped to X or Y by default) is a blank
string. -/
def rowBlankProduct : Row :=
  { id := 5, continent := some "Asia", region := some "East",
    product := some "", Q1 := some 1, Q2 := none, Q3 := none, Q4 := none }

/-- A fact with a dash inside its continent value. -/
def cexDashA : Fact :=
  { id := "x", continent := some "a-b", region := some "c",
    product := some "p", quarter := some "Q1", value := some 1,
    Q1 := some 1, Q2 := none, Q3 := none, Q4 := none, Total := none }

/-- A fact with a different triple whose join collides with `cexDashA`. -/
def cexDashB : Fact :=
  { id := "y", continent := some "a", region := some "b-c",
    product := some "p", quarter := some "Q1", value := some 2,
    Q1 := some 2, Q2 := none, Q3 := none, Q4 := none, Total := none }

/-- The single fact `applyRollUp` produces from the scenario row's four
quarter facts. -/
def exRollTotalFact : Fact :=
  { id := "Asia-East-A", continent := some "Asia", region := some "East",
    product := some "A", quarter := some "Total", value := none,
    Q1 := some 10, Q2 := some 20, Q3 := some 30, Q4 := some 40,
    Total := some 100 }

/-- A fact whose continent value contains a dash. -/
def cexKeyC : Fact :=
  { id := "u", continent := some "d-e", region := some "f",
    product := some "q", quarter := some "Q2", value := some 1,
    Q1 := none, Q2 := some 1, Q3 := none, Q4 := none, Total := none }

/-- A fact with a different triple whose join collides with `cexKeyC`. -/
def cexKeyD : Fact :=
  { id := "v", continent := some "d", region := some "e-f",
    product := some "q", quarter := some "Q2", value := some 2,
    Q1 := none, Q2 := some 2, Q3 := none, Q4 := none, Total := none }

/-- C2: on a state that is not yet rolled up, the roll-up event followed by
the drill-down event restores exactly (field-for-field list equality) the
fact collection of the original state and clears the rolled-up status,
because roll-up snapshots the pre-rollup fact collection and drill-down
returns that snapshot; raw data, axis mapping and filters are untouched. -/
theorem rollUp_drillDown_roundtrip (s : CubeState)
    (h : s.isRolledUp = false) :
    (handleDrillDown (handleRollUp s)).cubeData = s.cubeData
    ∧ (handleDrillDown (handleRollUp s)).isRolledUp = false
    ∧ (handleDrillDown (handleRollUp s)).rawData = s.rawData
    ∧ (handleDrillDown (handleRollUp s)).axisMapping = s.axisMapping
    ∧ (handleDrillDown (handleRollUp s)).currentFilters = s.currentFilters := by
  simp [handleRollUp, handleDrillDown, h]

/-- C2 witness: the round trip at a concrete base state. -/
theorem rollUp_drillDown_roundtrip_witness :
    (handleDrillDown (handleRollUp exState)).cubeData = exState.cubeData
    ∧ (handleDrillDown (handleRollUp exState)).isRolledUp = false :=
  ⟨(rollUp_drillDown_roundtrip exState rfl).1,
   (rollUp_drillDown_roundtrip exState rfl).2.1⟩

/-- C8: on a state whose rolled-up status is already true, the roll-up
event is a complete no-op — the whole state (facts, snapshot, flag) is
returned unchanged, so data is never aggregated twice. -/
theorem rollUp_noop_when_rolled (s : CubeState) (h : s.isRolledUp = true) :
    handleRollUp s = s := by
  simp [handleRollUp, h]

/-- C8 witness: roll-up leaves a concrete rolled-up state unchanged. -/
theorem rollUp_noop_when_rolled_witness :
    handleRollUp exRolledState = exRolledState :=
  rollUp_noop_when_rolled exRolledState rfl

/-- C6: a pivot request whose three axes are not pairwise distinct is
rejected with the state left entirely unchanged, while a request with three
distinct dimensions is accepted and its mapping replaces the current one;
in particular (continent, region, region) is rejected and
(continent, region, quarter) is accepted. -/
theorem pivot_validation (s : CubeState) (m : AxisMapping) :
    (pivotValid m = false → handleApplyPivot s m = s)
    ∧ (pivotValid m = true → (handleApplyPivot s m).axisMapping = m)
    ∧ pivotValid ⟨.continent, .region, .region⟩ = false
    ∧ pivotValid ⟨.continent, .region, .quarter⟩ = true := by
  refine ⟨fun h => by simp [handleApplyPivot, h], fun h => ?_,
    by decide, by decide⟩
  have hp : handleApplyPivot s m = handlePivot s m := by
    simp [handleApplyPivot, h]
  rw [hp]; unfold handlePivot runEffect
  split <;> rfl

/-- C6 witness: the two example requests of the claim, at a concrete
state. -/
theorem pivot_validation_witness :
    handleApplyPivot exState ⟨.continent, .region, .region⟩ = exState
    ∧ (handleApplyPivot exState ⟨.continent, .region, .quarter⟩).axisMapping
        = ⟨.continent, .region, .quarter⟩ :=
  ⟨(pivot_validation exState ⟨.continent, .region, .region⟩).1 (by decide),
   (pivot_validation exState ⟨.continent, .region, .quarter⟩).2.1 (by decide)⟩

/-- C4: an accepted (three-distinct-axes) pivot request recomputes the fact
collection in full from the unchanged raw data under the new mapping,
clears all active filters and the rolled-up status, and installs the new
mapping. -/
theorem pivot_recomputes_from_raw (s : CubeState) (m : AxisMapping)
    (h : pivotValid m = true) :
    (handleApplyPivot s m).cubeData = processRawData s.rawData m
    ∧ (handleApplyPivot s m).rawData = s.rawData
    ∧ (handleApplyPivot s m).currentFilters = []
    ∧ (handleApplyPivot s m).isRolledUp = false
    ∧ (handleApplyPivot s m).axisMapping = m := by
  have hp : handleApplyPivot s m = handlePivot s m := by
    simp [handleApplyPivot, h]
  rw [hp]; unfold handlePivot runEffect
  split
  · exact ⟨rfl, rfl, rfl, rfl, rfl⟩
  next hlen =>
    have hnil : s.rawData = [] := by
      cases hr : s.rawData with
      | nil => rfl
      | cons a l => rw [hr] at hlen; simp at hlen
    refine ⟨?_, rfl, rfl, rfl, rfl⟩
    rw [hnil]; rfl

/-- C4 witness: an accepted pivot at a concrete filtered state. -/
theorem pivot_recomputes_from_raw_witness :
    (handleApplyPivot exState ⟨.product, .region, .quarter⟩).cubeData
      = processRawData exState.rawData ⟨.product, .region, .quarter⟩
    ∧ (handleApplyPivot exState ⟨.product, .region, .quarter⟩).currentFilters
      = [] :=
  ⟨(pivot_recomputes_from_raw exState ⟨.product, .region, .quarter⟩
      (by decide)).1,
   (pivot_recomputes_from_raw exState ⟨.product, .region, .quarter⟩
      (by decide)).2.2.1⟩

/-- C5 (amended): two successive slice events both filter the unchanged
unfiltered baseline — the resulting fact collection is the baseline
filtered by the second criterion alone — but the filter map is the merge,
not the replacement, of the criteria: the second criterion overwrites a
same-dimension entry and is appended otherwise, so after slicing two
distinct dimensions starting from no filters both criteria are recorded. -/
theorem slice_refilters_baseline_merges_filters (s : CubeState)
    (d1 d2 : Dim) (v1 v2 : String) :
    (handleSlice (handleSlice s d1 v1) d2 v2).cubeData
        = applySlice s.originalCubeDataBeforeRollUp (some d2) v2
    ∧ (handleSlice (handleSlice s d1 v1) d2 v2).originalCubeDataBeforeRollUp
        = s.originalCubeDataBeforeRollUp
    ∧ (handleSlice (handleSlice s d1 v1) d2 v2).currentFilters
        = setFilter (setFilter s.currentFilters d1 v1) d2 v2
    ∧ (s.currentFilters = [] → d1 ≠ d2 →
        (handleSlice (handleSlice s d1 v1) d2 v2).currentFilters
          = [(d1, v1), (d2, v2)]) := by
  refine ⟨rfl, rfl, rfl, fun h0 hne => ?_⟩
  simp [handleSlice, setFilter, h0, hne]

/-- C5 witness: two slices on distinct dimensions at a concrete state. -/
theorem slice_refilters_baseline_witness :
    (handleSlice (handleSlice exState .continent "asia") .region "east").cubeData
      = applySlice exState.originalCubeDataBeforeRollUp (some .region) "east"
    ∧ (handleSlice (handleSlice exState .continent "asia") .region "east").currentFilters
      = [(Dim.continent, "asia"), (Dim.region, "east")] :=
  ⟨(slice_refilters_baseline_merges_filters exState .continent .region
      "asia" "east").1,
   (slice_refilters_baseline_merges_filters exState .continent .region
      "asia" "east").2.2.2 rfl (by decide)⟩

/-- C5 counterexample: after slice(continent, "a") then slice(region, "b")
the filter map holds BOTH criteria — it is not the replacement
[(region, "b")] the claim asserts. -/
theorem slice_filters_not_replaced_cex :
    (handleSlice (handleSlice emptyState .continent "a") .region "b").currentFilters
      = [(Dim.continent, "a"), (Dim.region, "b")]
    ∧ (handleSlice (handleSlice emptyState .continent "a") .region "b").currentFilters
      ≠ [(Dim.region, "b")] := by
  exact ⟨by decide, by decide⟩

/-- `rollAdd` only touches the `Total` field: any `Total`-insensitive
projection is preserved. -/
theorem rollAdd_preserves {α : Type} (g : Fact → α)
    (hg : ∀ (x : Fact) (t : Option Int), g { x with Total := t } = g x)
    (e item : Fact) : g (rollAdd e item) = g e := by
  unfold rollAdd
  split
  · exact hg e _
  · rfl

/-- Folding `rollAdd` preserves any `Total`-insensitive projection. -/
theorem foldl_rollAdd_preserves {α : Type} (g : Fact → α)
    (hg : ∀ (x : Fact) (t : Option Int), g { x with Total := t } = g x)
    (l : List Fact) : ∀ e : Fact, g (l.foldl rollAdd e) = g e := by
  induction l with
  | nil => intro e; rfl
  | cons f fs ih =>
    intro e
    simp only [List.foldl_cons]
    rw [ih, rollAdd_preserves g hg]

/-- Folding `rollAdd` adds exactly the sum of the items' contributions to a
defined running total. -/
theorem foldl_rollAdd_Total (l : List Fact) : ∀ (e : Fact) (t : Int),
    e.Total = some t →
    (l.foldl rollAdd e).Total = some (t + (l.map contrib).sum) := by
  induction l with
  | nil => intro e t h; simpa using h
  | cons f fs ih =>
    intro e t h
    simp only [List.foldl_cons, List.map_cons, List.sum_cons]
    have hstep : (rollAdd e f).Total = some (t + contrib f) := by
      unfold rollAdd contrib
      cases hc : (truthyOpt f.quarter && f.value.isSome) <;> simp [hc, h]
    rw [ih _ _ hstep, add_assoc]

/-- Looking up the key just upserted yields the accumulated entry:
the present entry, or a fresh one initialised from the item,
with the item's contribution added. -/
theorem lookupKey_upsert_self (groups : List (String × Fact)) (k : String)
    (item : Fact) :
    lookupKey k (upsert groups k item)
      = some (rollAdd ((lookupKey k groups).getD (rollInit k item)) item) := by
  induction groups with
  | nil => simp [upsert, lookupKey]
  | cons p rest ih =>
    by_cases hp : p.1 = k
    · simp [upsert, lookupKey, hp]
    · simp [upsert, lookupKey, hp, ih]

/-- Upserting one key leaves the lookup of any other key unchanged. -/
theorem lookupKey_upsert_ne (groups : List (String × Fact)) (k k2 : String)
    (item : Fact) (hne : k ≠ k2) :
    lookupKey k (upsert groups k2 item) = lookupKey k groups := by
  induction groups with
  | nil => simp [upsert, lookupKey, Ne.symm hne]
  | cons p rest ih =>
    by_cases hp : p.1 = k2
    · have hpk : p.1 ≠ k := by rw [hp]; exact Ne.symm hne
      simp [upsert, lookupKey, hp, hpk, Ne.symm hne]
    · by_cases hpk : p.1 = k
      · simp [upsert, lookupKey, hp, hpk, hne]
      · simp [upsert, lookupKey, hp, hpk, ih]

/-- The key list after an upsert: unchanged if the key is present, the key
appended otherwise. -/
theorem upsert_keys (groups : List (String × Fact)) (k : String)
    (item : Fact) :
    (upsert groups k item).map Prod.fst
      = dedupStep (groups.map Prod.fst) k := by
  induction groups with
  | nil => simp [upsert, dedupStep]
  | cons p rest ih =>
    by_cases hp : p.1 = k
    · simp [upsert, dedupStep, hp]
    · have hk1 : ¬(k = p.1) := fun h => hp h.symm
      by_cases hk : k ∈ rest.map Prod.fst <;>
        simp [upsert, dedupStep, hp, hk, hk1, ih]

/-- The keys of the aggregation map are the first-occurrence-deduplicated
keys of the facts folded so far. -/
theorem keys_foldl (data : List Fact) : ∀ groups : List (String × Fact),
    (data.foldl rollStep groups).map Prod.fst
      = (data.map rollKey).foldl dedupStep (groups.map Prod.fst) := by
  induction data with
  | nil => intro groups; rfl
  | cons f fs ih =>
    intro groups
    simp only [List.foldl_cons, List.map_cons]
    rw [ih, rollStep, upsert_keys]

/-- `dedupStep` preserves distinctness of the key list. -/
theorem dedupStep_nodup (acc : List String) (k : String) (h : acc.Nodup) :
    (dedupStep acc k).Nodup := by
  unfold dedupStep
  split
  · exact h
  next hk =>
    rw [List.nodup_append]
    refine ⟨h, List.nodup_singleton k, ?_⟩
    intro a ha hak
    rw [List.mem_singleton] at hak
    exact hk (hak ▸ ha)

/-- Folding `dedupStep` preserves distinctness of the key list. -/
theorem dedup_foldl_nodup (ks : List String) : ∀ acc : List String,
    acc.Nodup → (ks.foldl dedupStep acc).Nodup := by
  induction ks with
  | nil => intro acc h; exact h
  | cons k ks ih => intro acc h; exact ih _ (dedupStep_nodup acc k h)

/-- Every map entry's stored fact carries its own key as id (preserved by
upsert). -/
theorem upsert_id (groups : List (String × Fact)) (k : String) (item : Fact)
    (h : ∀ p ∈ groups, (Prod.snd p).id = p.1) :
    ∀ p ∈ upsert groups k item, (Prod.snd p).id = p.1 := by
  induction groups with
  | nil =>
    intro p hp
    simp only [upsert, List.mem_singleton] at hp
    rw [hp]
    exact rollAdd_preserves Fact.id (fun _ _ => rfl) _ item
  | cons q rest ih =>
    intro p hp
    by_cases hq : q.1 = k
    · simp only [upsert, if_pos hq] at hp
      rcases List.mem_cons.mp hp with h1 | h2
      · rw [h1]
        show (rollAdd q.2 item).id = q.1
        rw [rollAdd_preserves Fact.id (fun _ _ => rfl) q.2 item]
        exact h q (List.mem_cons_self q rest)
      · exact h p (List.mem_cons_of_mem q h2)
    · simp only [upsert, if_neg hq] at hp
      rcases List.mem_cons.mp hp with h1 | h2
      · rw [h1]; exact h q (List.mem_cons_self q rest)
      · exact ih (fun r hr => h r (List.mem_cons_of_mem q hr)) p h2

/-- Every entry of the aggregation map carries its own key as id. -/
theorem id_foldl (data : List Fact) : ∀ groups : List (String × Fact),
    (∀ p ∈ groups, (Prod.snd p).id = p.1) →
    ∀ p ∈ data.foldl rollStep groups, (Prod.snd p).id = p.1 := by
  induction data with
  | nil => intro groups h; exact h
  | cons f fs ih =>
    intro groups h
    exact ih (rollStep groups f) (upsert_id groups (rollKey f) f h)

/-- With distinct keys, membership determines the lookup result. -/
theorem lookupKey_of_mem (groups : List (String × Fact)) (k : String)
    (e : Fact) (hnd : (groups.map Prod.fst).Nodup) (hm : (k, e) ∈ groups) :
    lookupKey k groups = some e := by
  induction groups with
  | nil => cases hm
  | cons p rest ih =>
    rw [List.map_cons, List.nodup_cons] at hnd
    rcases List.mem_cons.mp hm with h1 | h2
    · rw [← h1]
      simp [lookupKey]
    · have hk : k ∈ rest.map Prod.fst :=
        List.mem_map.mpr ⟨(k, e), h2, rfl⟩
      have hne : p.1 ≠ k := fun hh => hnd.1 (hh ▸ hk)
      simp [lookupKey, hne, ih hnd.2 h2]

/-- Folding the optional accumulation from a defined entry is folding
`rollAdd` on the entry. -/
theorem foldl_optStep_some (k : String) (l : List Fact) : ∀ e : Fact,
    l.foldl
        (fun acc item => some (rollAdd (acc.getD (rollInit k item)) item))
        (some e)
      = some (l.foldl rollAdd e) := by
  induction l with
  | nil => intro e; rfl
  | cons f fs ih =>
    intro e
    simp only [List.foldl_cons]
    exact ih (rollAdd e f)

/-- Master characterisation of the aggregation fold: for each key, the
entry after folding all facts is the accumulation of exactly the facts
bearing that key, in order, starting from the entry (if any) already in the
map. -/
theorem lookupKey_foldl (data : List Fact) :
    ∀ (groups : List (String × Fact)) (k : String),
    lookupKey k (data.foldl rollStep groups)
      = (data.filter (fun f => rollKey f == k)).foldl
          (fun acc item => some (rollAdd (acc.getD (rollInit k item)) item))
          (lookupKey k groups) := by
  induction data with
  | nil => intro groups k; rfl
  | cons f fs ih =>
    intro groups k
    simp only [List.foldl_cons]
    rw [ih]
    by_cases hk : rollKey f = k
    · rw [List.filter_cons_of_pos (by simp [hk])]
      simp only [List.foldl_cons]
      rw [rollStep, hk, lookupKey_upsert_self]
    · rw [List.filter_cons_of_neg (by simp [hk])]
      rw [rollStep, lookupKey_upsert_ne groups k (rollKey f) f
        (fun h => hk h.symm)]

/-- The list of ids emitted by `applyRollUp` is exactly the
first-occurrence-deduplicated list of the facts' join keys: one fact per
distinct key. -/
theorem applyRollUp_ids (data : List Fact) :
    (applyRollUp data).map Fact.id = dedupKeys (data.map rollKey) := by
  unfold applyRollUp dedupKeys
  have hk := keys_foldl data []
  simp only [List.map_nil] at hk
  rw [List.map_map, List.map_map, ← hk]
  apply List.map_congr_left
  intro p hp
  show (Prod.snd p).id = p.1
  exact id_foldl data [] (fun r hr => absurd hr (List.not_mem_nil r)) p hp

/-- Characterisation of each fact emitted by `applyRollUp`: quarter is
stamped 'Total', the dimension values and retained measures come from the
first fact of its key group, and `Total` is the sum of the group's
contributions. -/
theorem applyRollUp_mem (data : List Fact) (f : Fact)
    (hf : f ∈ applyRollUp data) :
    f.quarter = some "Total"
    ∧ f.Total = some (groupSum data f.id)
    ∧ ∃ w l2, data.filter (fun x => rollKey x == f.id) = w :: l2
        ∧ f.continent = w.continent ∧ f.region = w.region
        ∧ f.product = w.product ∧ f.Q1 = w.Q1 ∧ f.Q2 = w.Q2
        ∧ f.Q3 = w.Q3 ∧ f.Q4 = w.Q4 := by
  unfold applyRollUp at hf
  rw [List.mem_map] at hf
  obtain ⟨f0, hf0, hfq⟩ := hf
  rw [List.mem_map] at hf0
  obtain ⟨p, hp, hsnd⟩ := hf0
  have hnd : ((data.foldl rollStep []).map Prod.fst).Nodup := by
    rw [keys_foldl data []]
    exact dedup_foldl_nodup _ [] List.nodup_nil
  have hid : f0.id = p.1 := by
    rw [← hsnd]
    exact id_foldl data []
      (fun r hr => absurd hr (List.not_mem_nil r)) p hp
  have hfid : f.id = p.1 := by rw [← hfq]; exact hid
  have hlk : lookupKey p.1 (data.foldl rollStep []) = some p.2 :=
    lookupKey_of_mem _ _ _ hnd hp
  rw [lookupKey_foldl data [] p.1] at hlk
  rcases hfil : data.filter (fun x => rollKey x == p.1) with _ | ⟨w, l2⟩
  · rw [hfil] at hlk
    simp [lookupKey] at hlk
  · rw [hfil] at hlk
    simp only [lookupKey, List.foldl_cons, Option.getD_none] at hlk
    rw [foldl_optStep_some] at hlk
    have hp2 : p.2 = l2.foldl rollAdd (rollAdd (rollInit p.1 w) w) :=
      (Option.some_inj.mp hlk).symm
    have hf0w : f0 = l2.foldl rollAdd (rollAdd (rollInit p.1 w) w) := by
      rw [← hsnd]; exact hp2
    have htot : f0.Total = some (groupSum data p.1) := by
      rw [hf0w, ← List.foldl_cons]
      have := foldl_rollAdd_Total (w :: l2) (rollInit p.1 w) 0 rfl
      rw [this, ← hfil]
      unfold groupSum
      rw [zero_add]
    have hfields : ∀ {α : Type} (g : Fact → α),
        (∀ (x : Fact) (t : Option Int), g { x with Total := t } = g x) →
        g f0 = g (rollInit p.1 w) := by
      intro α g hg
      rw [hf0w, foldl_rollAdd_preserves g hg, rollAdd_preserves g hg]
    refine ⟨by rw [← hfq], ?_, w, l2, by rw [← hfid] at hfil; exact hfil,
      ?_, ?_, ?_, ?_, ?_, ?_, ?_⟩
    · rw [← hfq]
      show f0.Total = some (groupSum data f0.id)
      rw [hid]
      exact htot
    · rw [← hfq]; exact hfields Fact.continent (fun _ _ => rfl)
    · rw [← hfq]; exact hfields Fact.region (fun _ _ => rfl)
    · rw [← hfq]; exact hfields Fact.product (fun _ _ => rfl)
    · rw [← hfq]; exact hfields Fact.Q1 (fun _ _ => rfl)
    · rw [← hfq]; exact hfields Fact.Q2 (fun _ _ => rfl)
    · rw [← hfq]; exact hfields Fact.Q3 (fun _ _ => rfl)
    · rw [← hfq]; exact hfields Fact.Q4 (fun _ _ => rfl)

/-- Filtering by two predicates in either order is the same conjunctive
filter. -/
theorem filter_swap (p q : Fact → Bool) (l : List Fact) :
    l.filter (fun f => p f && q f) = l.filter (fun f => q f && p f) := by
  apply List.filter_congr
  intro a _
  exact Bool.and_comm (p a) (q a)

/-- C9: a dice on two criteria equals the composition (hence the
intersection) of the two corresponding slices — membership in the dice
result is membership in both slice results — and a dice with a single
active filter is exactly the slice on that dimension and value; all three
use the same case-insensitive substring predicate. -/
theorem dice_eq_slice_intersection (data : List Fact) (d1 d2 : Dim)
    (v1 v2 : String) :
    applyDice data [(d1, v1), (d2, v2)]
        = applySlice (applySlice data (some d1) v1) (some d2) v2
    ∧ (∀ f : Fact, f ∈ applyDice data [(d1, v1), (d2, v2)]
        ↔ f ∈ applySlice data (some d1) v1
          ∧ f ∈ applySlice data (some d2) v2)
    ∧ applyDice data [(d1, v1)] = applySlice data (some d1) v1 := by
  refine ⟨?_, ?_, ?_⟩
  · by_cases h1 : v1 = "" <;> by_cases h2 : v2 = "" <;>
      simp [applyDice, applySlice, h1, h2, List.filter_filter]
    exact filter_swap (fun f => matchesDim f d1 v1)
      (fun f => matchesDim f d2 v2) data
  · intro f
    by_cases h1 : v1 = "" <;> by_cases h2 : v2 = "" <;>
      simp [applyDice, applySlice, h1, h2, List.mem_filter] <;> tauto
  · by_cases h1 : v1 = "" <;> simp [applyDice, applySlice, h1]

/-- C3: a raw row whose X- and Y-mapped dimension values are present (a
non-empty value, matching the code's truthiness test) expands into exactly
one fact per defined, non-null quarterly value, each fact carrying that
quarter's value plus all four original measures; a row whose X- or Y-mapped
value is missing yields zero facts. -/
theorem expansion_completeness (r : Row) (m : AxisMapping) :
    ((truthyOpt (rowGet r m.x) && truthyOpt (rowGet r m.y)) = true →
      (processRawData [r] m).length = countQuarters r
      ∧ ∀ f ∈ processRawData [r] m,
          f.Q1 = r.Q1 ∧ f.Q2 = r.Q2 ∧ f.Q3 = r.Q3 ∧ f.Q4 = r.Q4
          ∧ ∃ q v, f.quarter = some (quarterName q) ∧ rowQv r q = some v
              ∧ f.value = some v)
    ∧ ((truthyOpt (rowGet r m.x) && truthyOpt (rowGet r m.y)) = false →
      processRawData [r] m = []) := by
  have hsingle : processRawData [r] m = processRow m r := by
    simp [processRawData]
  constructor
  · intro h
    rw [hsingle]
    constructor
    · rw [processRow, h, if_pos rfl]
      cases hq1 : r.Q1 <;> cases hq2 : r.Q2 <;> cases hq3 : r.Q3 <;>
        cases hq4 : r.Q4 <;>
        simp [quarterCols, rowQv, countQuarters, hq1, hq2, hq3, hq4]
    · intro f hf
      rw [processRow, h, if_pos rfl] at hf
      rw [List.mem_filterMap] at hf
      obtain ⟨q, _, heq⟩ := hf
      rw [Option.map_eq_some'] at heq
      obtain ⟨v, hv, hfv⟩ := heq
      subst hfv
      exact ⟨rfl, rfl, rfl, rfl, q, v, rfl, hv, rfl⟩
  · intro h
    rw [hsingle, processRow, h]
    simp

/-- C3 witness: a surviving row with two defined quarters yields two facts;
a row missing its Y-mapped dimension yields none. -/
theorem expansion_completeness_witness :
    (processRawData [exRowPartial] defaultMapping).length
      = countQuarters exRowPartial
    ∧ processRawData [exRowMissing] defaultMapping = [] :=
  ⟨((expansion_completeness exRowPartial defaultMapping).1 (by decide)).1,
   (expansion_completeness exRowMissing defaultMapping).2 (by decide)⟩

/-- C7 counterexample: a row whose continent field is present but holds the
blank string, under the default mapping (x = continent): all four quarters
are defined, yet expansion emits zero facts — the blank string on an
X/Y-mapped dimension is treated like a missing value, not tolerated as a
matchable value as the claim states. -/
theorem blank_mapped_dimension_cex :
    rowBlankContinent.continent = some ""
    ∧ countQuarters rowBlankContinent = 4
    ∧ processRawData [rowBlankContinent] defaultMapping = [] :=
  ⟨rfl, by decide, rfl⟩

/-- C7 (amended): at expansion time a blank string in the X- or Y-mapped
dimension is treated the same as a missing value — the row is skipped —
while a blank string in any dimension not mapped to X or Y is tolerated and
carried into the emitted facts as a distinct value; a row is also skipped
when the X- or Y-mapped value is absent. -/
theorem blank_dimension_amended (m : AxisMapping) (r : Row) :
    (rowGet r m.x = some "" → processRow m r = [])
    ∧ (rowGet r m.y = some "" → processRow m r = [])
    ∧ (rowGet r m.x = none → processRow m r = [])
    ∧ (rowGet r m.y = none → processRow m r = [])
    ∧ ((truthyOpt (rowGet r m.x) && truthyOpt (rowGet r m.y)) = true →
        ∀ f ∈ processRow m r,
          f.continent = r.continent ∧ f.region = r.region
          ∧ f.product = r.product) := by
  refine ⟨fun h => ?_, fun h => ?_, fun h => ?_, fun h => ?_, fun h => ?_⟩
  · simp [processRow, h, truthyOpt]
  · simp [processRow, h, truthyOpt]
  · simp [processRow, h, truthyOpt]
  · simp [processRow, h, truthyOpt]
  · intro f hf
    rw [processRow, h, if_pos rfl] at hf
    rw [List.mem_filterMap] at hf
    obtain ⟨q, _, heq⟩ := hf
    rw [Option.map_eq_some'] at heq
    obtain ⟨v, _, hfv⟩ := heq
    subst hfv
    exact ⟨rfl, rfl, rfl⟩

/-- C7 witness: the blank-continent row is skipped, and the blank-product
row is expanded with the blank product carried into its fact. -/
theorem blank_dimension_amended_witness :
    processRow defaultMapping rowBlankContinent = []
    ∧ (mkFact rowBlankProduct .q1 1).product = rowBlankProduct.product :=
  ⟨(blank_dimension_amended defaultMapping rowBlankContinent).1 rfl,
   ((blank_dimension_amended defaultMapping rowBlankProduct).2.2.2.2
      (by decide) (mkFact rowBlankProduct .q1 1) (by decide)).2.2⟩

/-- C1 (amended): `applyRollUp` emits exactly one fact per distinct joined
string key continent-region-product (not per distinct triple, since the
join can collide): the emitted ids are the first-occurrence-deduplicated
keys; every emitted fact has quarter 'Total', carries the dimension values
and original Q1..Q4 of the first fact of its key group, and its Total is
the sum of the `value` field over the group's facts (those with a truthy
quarter and a defined value — all quarter-facts qualify); the per-group
Total is invariant to the order of the input facts. -/
theorem rollUp_one_fact_per_group (data : List Fact) :
    ((applyRollUp data).map Fact.id = dedupKeys (data.map rollKey))
    ∧ (∀ f ∈ applyRollUp data,
        f.quarter = some "Total"
        ∧ f.Total = some (groupSum data f.id)
        ∧ ∃ w l2, data.filter (fun x => rollKey x == f.id) = w :: l2
            ∧ f.continent = w.continent ∧ f.region = w.region
            ∧ f.product = w.product ∧ f.Q1 = w.Q1 ∧ f.Q2 = w.Q2
            ∧ f.Q3 = w.Q3 ∧ f.Q4 = w.Q4)
    ∧ (∀ data2 : List Fact, data.Perm data2 →
        ∀ k, groupSum data k = groupSum data2 k) := by
  refine ⟨applyRollUp_ids data, fun f hf => applyRollUp_mem data f hf,
    fun data2 hperm k => ?_⟩
  unfold groupSum
  exact List.Perm.sum_eq
    (List.Perm.map contrib (List.Perm.filter _ hperm))

/-- C1 counterexample: a collection with two distinct
(continent, region, product) triples for which the claim requires two
emitted facts, yet `applyRollUp` emits a single fact because the joined
keys coincide. -/
theorem rollUp_one_fact_per_group_cex :
    (cexDashA.continent, cexDashA.region, cexDashA.product)
      ≠ (cexDashB.continent, cexDashB.region, cexDashB.product)
    ∧ (applyRollUp [cexDashA, cexDashB]).length = 1 :=
  ⟨by decide, by decide⟩

/-- C1 witness: the rolled-up fact of the scenario data carries
quarter 'Total' and the group sum, and the group sum is unchanged when the
input facts are reversed. -/
theorem rollUp_one_fact_per_group_witness :
    exRollTotalFact.quarter = some "Total"
    ∧ exRollTotalFact.Total
        = some (groupSum (processRawData [exRow] defaultMapping)
            exRollTotalFact.id)
    ∧ groupSum (processRawData [exRow] defaultMapping) "Asia-East-A"
        = groupSum ((processRawData [exRow] defaultMapping).reverse)
            "Asia-East-A" := by
  have hmem : exRollTotalFact
      ∈ applyRollUp (processRawData [exRow] defaultMapping) := by decide
  have hperm : (processRawData [exRow] defaultMapping).Perm
      ((processRawData [exRow] defaultMapping).reverse) :=
    (List.reverse_perm _).symm
  obtain ⟨h1, h2, -⟩ :=
    (rollUp_one_fact_per_group (processRawData [exRow] defaultMapping)).2.1
      exRollTotalFact hmem
  exact ⟨h1, h2,
    (rollUp_one_fact_per_group (processRawData [exRow] defaultMapping)).2.2
      _ hperm _⟩

/-- C10: `applyRollUp` groups by the joined string
continent-region-product; the key of any fact is literally that join, and
two facts with distinct triples whose dimension values contain a dash
produce equal keys and are aggregated into a single Total fact (here with
the merged Total 3) instead of two. -/
theorem rollUp_dash_key_collision :
    (∀ f : Fact, rollKey f
        = optStr f.continent ++ "-" ++ optStr f.region ++ "-"
            ++ optStr f.product)
    ∧ rollKey cexKeyC = rollKey cexKeyD
    ∧ cexKeyC.continent ≠ cexKeyD.continent
    ∧ (applyRollUp [cexKeyC, cexKeyD]).length = 1
    ∧ (applyRollUp [cexKeyC, cexKeyD]).map Fact.Total = [some 3] :=
  ⟨fun f => rfl, by decide, by decide, by decide, by decide⟩

end Olap
